import Mathlib

set_option maxRecDepth 100000

/-!
Verification of the slidie-ttyd command runner (`slidie_ttyd/runner.py` and
`slidie_ttyd/script_generators.py`) against its natural-language specification.

The development shallowly embeds the two source modules:

* the Python-dict operations used by the generated scripts
  (`dict(os.environ, **env)`, `dict(args.env)`, keyword collisions),
* CPython `repr` for the value universe interpolated into generated scripts
  (strings, lists of strings, string-to-string dicts, `None`) together with a
  parser modelling how the Python interpreter reads those literals back,
* `shlex.quote` together with a POSIX shell word tokenizer modelling the
  remote shell's one extra layer of tokenization,
* `textwrap.dedent` and `str.strip`, so the script generators
  `make_shell_command` / `make_run_command` are embedded as the literal text
  they return,
* the command construction and exit-code propagation of `run_script`.

Machine strings are Lean `String`s (lists of Unicode scalar values); where a
definition inspects characters it does so through `String.toList`.
-/

/-! ## Python dict model

A Python `dict[str, str]` is modelled as its list of items in insertion
order.  `pyDictSet` is item assignment (`d[k] = v`): an existing key keeps
its position and gets the new value, a new key is appended.  `pyDictUpdate`
is `dict(d, **u)` / `d.update(u)`; `pyDict` is `dict(pairs)` built from an
iterable of pairs, with a later pair for the same key overriding an earlier
one in place.
-/

def pyLookup : List (String × String) → String → Option String
  | [], _ => none
  | p :: d, k => if p.1 = k then some p.2 else pyLookup d k

def pyDictSet : List (String × String) → String → String → List (String × String)
  | [], k, v => [(k, v)]
  | p :: d, k, v => if p.1 = k then (k, v) :: d else p :: pyDictSet d k v

def pyDictUpdate (d : List (String × String)) (u : List (String × String)) :
    List (String × String) :=
  u.foldl (fun acc p => pyDictSet acc p.1 p.2) d

def pyDict (l : List (String × String)) : List (String × String) :=
  pyDictUpdate [] l

/-- Value associated with the last occurrence of key `k` in a list of pairs
(`none` when `k` never occurs).  This is the reference notion of
"later occurrences override earlier ones". -/
def envLast : List (String × String) → String → Option String
  | [], _ => none
  | p :: rest, k => (envLast rest k).or (if p.1 = k then some p.2 else none)

/-! ## `environment_variable` (runner.py)

`arg.partition("=")` splits at the first `=`; with no `=` present the whole
argument becomes the name and the value is the empty string.
-/

def environment_variable (arg : String) : String × String :=
  (String.mk (arg.toList.takeWhile (fun c => c != '=')),
   String.mk ((arg.toList.dropWhile (fun c => c != '=')).drop 1))

/-! ## CPython `repr` for the interpolated value universe

The script generators interpolate values with `{...!r}`, i.e. CPython
`repr`.  For a `str`, CPython picks a single quote as delimiter unless the
string contains a single quote and no double quote; it then escapes the
delimiter and backslash with a backslash, renders tab, newline and carriage
return as `\t` `\n` `\r`, renders the remaining control characters
(code < 32 or code 127) as `\xHH` with lowercase hex digits, and prints the
other characters literally.  (CPython additionally renders non-printable
characters above 127 with `\u` escapes; here they are kept literal, which
the interpreter reads back to the same character, so the literal's meaning
is unchanged.)  Lists render as `[item, item]`, dicts as
`{key: value, ...}` in insertion order, `None` as `None`.
-/

def hexDigit (n : Nat) : Char :=
  if n < 10 then Char.ofNat ('0'.toNat + n) else Char.ofNat ('a'.toNat + n - 10)

def hexVal (c : Char) : Option Nat :=
  if '0' ≤ c ∧ c ≤ '9' then some (c.toNat - '0'.toNat)
  else if 'a' ≤ c ∧ c ≤ 'f' then some (c.toNat - 'a'.toNat + 10)
  else if 'A' ≤ c ∧ c ≤ 'F' then some (c.toNat - 'A'.toNat + 10)
  else none

def pyQuoteChar (cs : List Char) : Char :=
  if cs.contains '\x27' && !cs.contains '"' then '"' else '\x27'

def pyEscChar (q c : Char) : List Char :=
  if c = q ∨ c = '\\' then ['\\', c]
  else if c = '\t' then ['\\', 't']
  else if c = '\n' then ['\\', 'n']
  else if c = '\r' then ['\\', 'r']
  else if c.toNat < 32 ∨ c.toNat = 127 then
    ['\\', 'x', hexDigit (c.toNat / 16), hexDigit (c.toNat % 16)]
  else [c]

def pyEscBody (q : Char) : List Char → List Char
  | [] => []
  | c :: cs => pyEscChar q c ++ pyEscBody q cs

def pyReprStrChars (cs : List Char) : List Char :=
  let q := pyQuoteChar cs
  q :: pyEscBody q cs ++ [q]

/-- CPython `repr` of a `str`. -/
def pyReprStr (s : String) : String :=
  String.mk (pyReprStrChars s.toList)

/-- Comma-space separator tail: `reprSep [y, z] = ", y, z"` as characters. -/
def reprSep : List (List Char) → List Char
  | [] => []
  | y :: ys => ',' :: ' ' :: (y ++ reprSep ys)

/-- Comma-space separated concatenation, as in `", ".join(...)`. -/
def reprJoin : List (List Char) → List Char
  | [] => []
  | x :: xs => x ++ reprSep xs

/-- CPython `repr` of a `list[str]`. -/
def pyReprList (l : List String) : String :=
  String.mk ('[' :: reprJoin (l.map (fun s => (pyReprStr s).toList)) ++ [']'])

def pyReprEntry (kv : String × String) : List Char :=
  (pyReprStr kv.1).toList ++ ':' :: ' ' :: (pyReprStr kv.2).toList

/-- CPython `repr` of a `dict[str, str]` (items in insertion order). -/
def pyReprDict (d : List (String × String)) : String :=
  String.mk ('\x7b' :: reprJoin (d.map pyReprEntry) ++ ['\x7d'])

/-- CPython `repr` of a `str | None` value. -/
def pyReprOptStr : Option String → String
  | none => "None"
  | some s => pyReprStr s

/-! ## Python literal parser

Models how the target interpreter reads the literals back when the
generated script text is executed.  The parser consumes exactly one literal
and returns the remaining input, so a successful parse also witnesses that
the literal is self-delimiting: the value cannot spill into the surrounding
script text.  `parsePyStrBody` covers the escape forms `repr` emits
(delimiter, backslash, `\t` `\n` `\r`, `\xHH`); a bare newline or carriage
return inside a single-line literal is a syntax error, as in Python.
-/

def consFst (c : Char) (p : List Char × List Char) : List Char × List Char :=
  (c :: p.1, p.2)

def parsePyStrBody (q : Char) : List Char → Option (List Char × List Char)
  | [] => none
  | c :: rest =>
    if c = q then some ([], rest)
    else if c = '\n' ∨ c = '\r' then none
    else if c = '\\' then
      match rest with
      | [] => none
      | e :: rest2 =>
        if e = '\\' ∨ e = '\x27' ∨ e = '"' then (parsePyStrBody q rest2).map (consFst e)
        else if e = 'n' then (parsePyStrBody q rest2).map (consFst '\n')
        else if e = 't' then (parsePyStrBody q rest2).map (consFst '\t')
        else if e = 'r' then (parsePyStrBody q rest2).map (consFst '\r')
        else if e = 'x' then
          match rest2 with
          | h1 :: h2 :: rest3 =>
            match hexVal h1, hexVal h2 with
            | some a, some b =>
              (parsePyStrBody q rest3).map (consFst (Char.ofNat (16 * a + b)))
            | _, _ => none
          | _ => none
        else none
    else (parsePyStrBody q rest).map (consFst c)

def parsePyStr (input : List Char) : Option (String × List Char) :=
  match input with
  | c :: rest =>
    if c = '\x27' ∨ c = '"' then
      (parsePyStrBody c rest).map (fun p => (String.mk p.1, p.2))
    else none
  | [] => none

/-- Parse a nonempty `", "`-separated sequence of items, given a parser for
a single item.  The fuel bounds the number of items; any fuel at least the
item count behaves like unbounded recursion. -/
def sepItems {α : Type} (p : List Char → Option (α × List Char)) :
    Nat → List Char → Option (List α × List Char)
  | 0, _ => none
  | fuel + 1, input =>
    (p input).bind (fun ar =>
      if ar.2.take 2 = [',', ' '] then
        (sepItems p fuel (ar.2.drop 2)).map (fun r => (ar.1 :: r.1, r.2))
      else some ([ar.1], ar.2))

def parsePyList (input : List Char) : Option (List String × List Char) :=
  if input.take 2 = ['[', ']'] then some ([], input.drop 2)
  else if input.take 1 = ['['] then
    (sepItems parsePyStr input.length (input.drop 1)).bind (fun lr =>
      if lr.2.take 1 = [']'] then some (lr.1, lr.2.drop 1) else none)
  else none

def parseDictEntry (input : List Char) : Option ((String × String) × List Char) :=
  (parsePyStr input).bind (fun kr =>
    if kr.2.take 2 = [':', ' '] then
      (parsePyStr (kr.2.drop 2)).map (fun vr => ((kr.1, vr.1), vr.2))
    else none)

def parsePyDict (input : List Char) : Option (List (String × String) × List Char) :=
  if input.take 2 = ['\x7b', '\x7d'] then some ([], input.drop 2)
  else if input.take 1 = ['\x7b'] then
    (sepItems parseDictEntry input.length (input.drop 1)).bind (fun dr =>
      if dr.2.take 1 = ['\x7d'] then some (dr.1, dr.2.drop 1) else none)
  else none

def parsePyOptStr (input : List Char) : Option (Option String × List Char) :=
  if input.take 4 = ['N', 'o', 'n', 'e'] then some (none, input.drop 4)
  else (parsePyStr input).map (fun p => (some p.1, p.2))

/-! ## `shlex.quote`

`shlex.quote(s)` returns `''` for the empty string, returns `s` unchanged
when every character is alphanumeric or one of `_` `@` `%` `+` `=` `:` `,`
`.` slash or `-` (the `_find_unsafe` pattern), and otherwise wraps
`s` in single quotes after replacing each single quote with `'"'"'`.
-/

def shlexSafe (c : Char) : Bool :=
  ('a' ≤ c && c ≤ 'z') || ('A' ≤ c && c ≤ 'Z') || ('0' ≤ c && c ≤ '9') ||
  c == '_' || c == '@' || c == '%' || c == '+' || c == '=' ||
  c == ':' || c == ',' || c == '.' || c == '/' || c == '-'

def shQuoteBody : List Char → List Char
  | [] => []
  | c :: cs =>
    (if c = '\x27' then ['\x27', '"', '\x27', '"', '\x27'] else [c]) ++ shQuoteBody cs

def shlex_quote (s : String) : String :=
  if s = "" then "\x27\x27"
  else if s.toList.all shlexSafe then s
  else "\x27" ++ String.mk (shQuoteBody s.toList) ++ "\x27"

/-! ## POSIX shell word tokenization

`shWord mode input` reads a single shell word: quote removal for single
quotes (everything literal up to the closing quote), double quotes
(backslash escapes `$`, backquote, `"`, backslash; backslash-newline is a
line continuation) and unquoted backslash escapes; the word ends at an
unquoted blank or at the end of input.  Characters that would trigger an
expansion (`$`, backquote) are outside the model and make the tokenizer
fail, so a successful parse means the remote shell passes exactly the
returned word to the remote interpreter.
-/

inductive ShMode : Type
  | norm
  | insingle
  | indouble
deriving DecidableEq

def shWord : ShMode → List Char → Option (List Char × List Char)
  | .norm, [] => some ([], [])
  | .norm, c :: rest =>
    if c = ' ' ∨ c = '\t' ∨ c = '\n' then some ([], c :: rest)
    else if c = '\x27' then shWord .insingle rest
    else if c = '"' then shWord .indouble rest
    else if c = '\\' then
      match rest with
      | [] => none
      | e :: rest2 =>
        if e = '\n' then shWord .norm rest2 else (shWord .norm rest2).map (consFst e)
    else if c = '$' ∨ c = '`' then none
    else (shWord .norm rest).map (consFst c)
  | .insingle, [] => none
  | .insingle, c :: rest =>
    if c = '\x27' then shWord .norm rest
    else (shWord .insingle rest).map (consFst c)
  | .indouble, [] => none
  | .indouble, c :: rest =>
    if c = '"' then shWord .norm rest
    else if c = '\\' then
      match rest with
      | [] => none
      | e :: rest2 =>
        if e = '$' ∨ e = '`' ∨ e = '"' ∨ e = '\\' then
          (shWord .indouble rest2).map (consFst e)
        else if e = '\n' then shWord .indouble rest2
        else (shWord .indouble (e :: rest2)).map (consFst '\\')
    else if c = '$' ∨ c = '`' then none
    else (shWord .indouble rest).map (consFst c)

/-! ## `textwrap.dedent` and `str.strip`

`textwrap.dedent` first blanks every line that consists solely of spaces
and tabs, then removes from each line the longest whitespace margin common
to all lines that contain a non-whitespace character.  `str.strip()`
removes whitespace from both ends (the ASCII whitespace characters cover
everything the generated templates produce).
-/

def pySplitLines : List Char → List (List Char)
  | [] => [[]]
  | '\n' :: rest => [] :: pySplitLines rest
  | c :: rest =>
    match pySplitLines rest with
    | l :: ls => (c :: l) :: ls
    | [] => [[c]]

def joinNL : List (List Char) → List Char
  | [] => []
  | [l] => l
  | l :: ls => l ++ '\n' :: joinNL ls

def commonStart : List Char → List Char → List Char
  | x :: a, y :: b => if x = y then x :: commonStart a b else []
  | _, _ => []

def computeMargin : Option (List Char) → List (List Char) → List Char
  | m, [] => m.getD []
  | none, indent :: rest => computeMargin (some indent) rest
  | some m, indent :: rest =>
    if m.isPrefixOf indent then computeMargin (some m) rest
    else if indent.isPrefixOf m then computeMargin (some indent) rest
    else computeMargin (some (commonStart m indent)) rest

def isIndentChar (c : Char) : Bool :=
  c == ' ' || c == '\t'

def pyDedent (text : String) : String :=
  let lines := (pySplitLines text.toList).map
    (fun l => if !l.isEmpty && l.all isIndentChar then [] else l)
  let indents := (lines.filter (fun l => l.any (fun c => !isIndentChar c))).map
    (fun l => l.takeWhile isIndentChar)
  let margin := computeMargin none indents
  if margin.isEmpty then String.mk (joinNL lines)
  else
    String.mk (joinNL (lines.map
      (fun l => if margin.isPrefixOf l then l.drop margin.length else l)))

def pyIsSpace (c : Char) : Bool :=
  c == ' ' || c == '\t' || c == '\n' || c == '\r' || c == '\x0b' || c == '\x0c'

def pyStrip (s : String) : String :=
  String.mk (((s.toList.dropWhile pyIsSpace).reverse.dropWhile pyIsSpace).reverse)

/-! ## Script generators (`script_generators.py`)

`pyJoin` is `sep.join(list)`.  `history_lines` is the local value
`"\n".join(history) + "\n"` computed by `make_shell_command`; it is the
exact text the generated script writes into the history file.  The two
generators return the dedented, stripped script templates with the three
interpolated `repr` literals.
-/

def pyJoin (sep : String) : List String → String
  | [] => ""
  | [x] => x
  | x :: xs => x ++ sep ++ pyJoin sep xs

def history_lines (history : List String) : String :=
  pyJoin "\n" history ++ "\n"

def make_shell_command (cwd : Option String) (env : List (String × String))
    (history : List String) : String :=
  pyStrip (pyDedent (
    "\n            import os, sys, subprocess, tempfile"
    ++ "\n            from pathlib import Path"
    ++ "\n            with tempfile.TemporaryDirectory() as d:"
    ++ "\n                h = Path(d) / \"history\""
    ++ "\n                h.write_text(" ++ pyReprStr (history_lines history) ++ ")"
    ++ "\n                env = dict(os.environ, HISTFILE=h, **" ++ pyReprDict env ++ ")"
    ++ "\n                sys.exit("
    ++ "\n                    subprocess.run("
    ++ "\n                        env.get(\"SHELL\", \"bash\"),"
    ++ "\n                        env=env,"
    ++ "\n                        cwd=" ++ pyReprOptStr cwd ++ ","
    ++ "\n                    ).returncode"
    ++ "\n                )"
    ++ "\n        "))

def make_run_command (command : List String) (cwd : Option String)
    (env : List (String × String)) : String :=
  pyStrip (pyDedent (
    "\n            import os, sys, subprocess"
    ++ "\n            sys.exit("
    ++ "\n                subprocess.run("
    ++ "\n                    " ++ pyReprList command ++ ","
    ++ "\n                    cwd=" ++ pyReprOptStr cwd ++ ","
    ++ "\n                    env=dict(os.environ, **" ++ pyReprDict env ++ "),"
    ++ "\n                ).returncode"
    ++ "\n            )"
    ++ "\n        "))

/-! ## Launcher (`run_script` in runner.py)

`run_script` builds the command line: with a truthy `args.ssh` (argparse
yields `None` when `--ssh` is absent, otherwise the nonempty list of given
arguments) the command is `ssh`, the ssh arguments in order, then the fixed
remote invocation `python -c <shlex.quote(script)>`; otherwise it is
`python -c <script>`.  It then exits with the child's return code.
`run_script_exit` models `sys.exit(subprocess.run(command).returncode)`:
when the child ran, the interpreter exits with the return code (taken
modulo 256 by the operating system); when the executable cannot be started,
`subprocess.run` raises `FileNotFoundError`, which propagates as an
unhandled exception — CPython prints a traceback to stderr and exits with
status 1.
-/

def sshTruthy : Option (List String) → Bool
  | none => false
  | some [] => false
  | some (_ :: _) => true

def run_script_command (ssh : Option (List String)) (script : String) : List String :=
  if sshTruthy ssh then
    ["ssh"] ++ ssh.getD [] ++ ["python", "-c", shlex_quote script]
  else
    ["python", "-c", script]

inductive LaunchError : Type
  | fileNotFound
deriving DecidableEq

def run_script_exit : Except LaunchError Int → Nat
  | .ok rc => (rc % 256).toNat
  | .error _ => 1

/-! ## Semantics of the generated scripts

The two script templates are fixed; only the three `repr` literals vary.
`run_command_effect` gives the meaning of the run-script template: the
child process invocation it performs, given the ambient environment and
ambient working directory of the process executing the script.
`shell_command_effect` gives the meaning of the shell-script template,
given additionally the temporary directory created at execution time.  In
the latter, `dict(os.environ, HISTFILE=h, **env)` raises a `TypeError`
("got multiple values for keyword argument") when the interpolated `env`
dict itself contains the key `HISTFILE`, because `HISTFILE` is already
passed as an explicit keyword argument; in that case the script dies before
spawning any shell.
-/

structure RunSpec : Type where
  argv : List String
  cwd : String
  env : List (String × String)
deriving DecidableEq

def run_command_effect (command : List String) (cwd : Option String)
    (env : List (String × String)) (ambient : List (String × String))
    (ambientCwd : String) : RunSpec :=
  { argv := command
    cwd := cwd.getD ambientCwd
    env := pyDictUpdate ambient env }

structure ShellSpec : Type where
  shell : String
  cwd : Option String
  env : List (String × String)
  histPath : String
  histContent : String
deriving DecidableEq

inductive ScriptError : Type
  | histfileKeywordCollision
deriving DecidableEq

def shell_command_effect (cwd : Option String) (env : List (String × String))
    (history : List String) (ambient : List (String × String)) (tmpdir : String) :
    Except ScriptError ShellSpec :=
  let h := tmpdir ++ "/history"
  if env.any (fun p => p.1 == "HISTFILE") then
    .error .histfileKeywordCollision
  else
    let menv := pyDictUpdate ambient (("HISTFILE", h) :: env)
    .ok
      { shell := (pyLookup menv "SHELL").getD "bash"
        cwd := cwd
        env := menv
        histPath := h
        histContent := history_lines history }

/-! ## Validation against concrete CPython outputs

The right-hand sides of the following equalities are the exact strings the
CPython standard library produces for the corresponding expressions
(`repr`, `shlex.quote`, and the source's `make_shell_command` /
`make_run_command` run under CPython), so the embedding is checked
end to end against the reference implementation on concrete inputs.
-/

theorem pyReprStr_matches_cpython :
    pyReprStr "a\x27b" = "\"a\x27b\""
    ∧ pyReprStr "a\x27\"b" = "\x27a\\\x27\"b\x27"
    ∧ pyReprStr "a\nb\x1f" = "\x27a\\nb\\x1f\x27"
    ∧ pyReprList ["a", "b"] = "[\x27a\x27, \x27b\x27]"
    ∧ pyReprDict [("a", "b"), ("c", "d")] = "\x7b\x27a\x27: \x27b\x27, \x27c\x27: \x27d\x27\x7d"
    ∧ pyReprOptStr none = "None" := by
  refine ⟨by decide, by decide, by decide, by decide, by decide, by decide⟩

theorem shlex_quote_matches_cpython :
    shlex_quote "echo don\x27t; rm -rf /" = "\x27echo don\x27\"\x27\"\x27t; rm -rf /\x27"
    ∧ shlex_quote "safe_word.txt" = "safe_word.txt"
    ∧ shlex_quote "" = "\x27\x27" := by
  refine ⟨by decide, by decide, by decide⟩

theorem make_shell_command_matches_cpython :
    make_shell_command (some "/tmp/w") [("A", "x\x27y")] ["echo don\x27t", "ls"] = "import os, sys, subprocess, tempfile\nfrom pathlib import Path\nwith tempfile.TemporaryDirectory() as d:\n    h = Path(d) / \"history\"\n    h.write_text(\"echo don\x27t\\nls\\n\")\n    env = dict(os.environ, HISTFILE=h, **\x7b\x27A\x27: \"x\x27y\"\x7d)\n    sys.exit(\n        subprocess.run(\n            env.get(\"SHELL\", \"bash\"),\n            env=env,\n            cwd=\x27/tmp/w\x27,\n        ).returncode\n    )" := by
  decide

theorem make_run_command_matches_cpython :
    make_run_command ["echo", "a b"] none [] = "import os, sys, subprocess\nsys.exit(\n    subprocess.run(\n        [\x27echo\x27, \x27a b\x27],\n        cwd=None,\n        env=dict(os.environ, **\x7b\x7d),\n    ).returncode\n)" := by
  decide

/-! ## Helper lemmas: strings and characters -/

theorem mk_toList (s : String) : String.mk s.toList = s := by
  cases s
  rfl

theorem toList_append (a b : String) : (a ++ b).toList = a.toList ++ b.toList :=
  String.data_append a b

theorem hexVal_hexDigit : ∀ n < 16, hexVal (hexDigit n) = some n := by
  decide

/-! ## Helper lemmas: the string-literal round trip -/

theorem pyQuoteChar_cases (cs : List Char) :
    pyQuoteChar cs = '\x27' ∨ pyQuoteChar cs = '"' := by
  rw [pyQuoteChar]
  split
  · exact Or.inr rfl
  · exact Or.inl rfl

theorem parsePyStrBody_escBody (q : Char) (hq : q = '\x27' ∨ q = '"')
    (cs : List Char) :
    ∀ rest : List Char,
      parsePyStrBody q (pyEscBody q cs ++ q :: rest) = some (cs, rest) := by
  induction cs with
  | nil =>
    intro rest
    rcases hq with rfl | rfl <;> (unfold pyEscBody parsePyStrBody; simp)
  | cons c cs ih =>
    intro rest
    by_cases h1 : c = q ∨ c = '\\'
    · rcases hq with rfl | rfl <;> rcases h1 with rfl | rfl <;>
        (simp only [pyEscBody, pyEscChar]; norm_num; unfold parsePyStrBody;
         simp [ih, consFst])
    · push_neg at h1
      by_cases h2 : c = '\t'
      · subst h2
        have hesc : pyEscChar q '\t' = ['\\', 't'] := by
          simp [pyEscChar, h1.1]
        rcases hq with rfl | rfl <;>
          (simp only [pyEscBody, hesc]; unfold parsePyStrBody; simp [ih, consFst])
      · by_cases h3 : c = '\n'
        · subst h3
          have hesc : pyEscChar q '\n' = ['\\', 'n'] := by
            simp [pyEscChar, h1.1]
          rcases hq with rfl | rfl <;>
            (simp only [pyEscBody, hesc]; unfold parsePyStrBody; simp [ih, consFst])
        · by_cases h4 : c = '\r'
          · subst h4
            have hesc : pyEscChar q '\r' = ['\\', 'r'] := by
              simp [pyEscChar, h1.1]
            rcases hq with rfl | rfl <;>
              (simp only [pyEscBody, hesc]; unfold parsePyStrBody; simp [ih, consFst])
          · by_cases h5 : c.toNat < 32 ∨ c.toNat = 127
            · have ha : c.toNat / 16 < 16 := by
                rcases h5 with h | h <;> omega
              have hb : c.toNat % 16 < 16 := Nat.mod_lt _ (by norm_num)
              have hesc : pyEscChar q c =
                  ['\\', 'x', hexDigit (c.toNat / 16), hexDigit (c.toNat % 16)] := by
                simp [pyEscChar, h1.1, h1.2, h2, h3, h4, h5]
              rcases hq with rfl | rfl <;>
                (simp only [pyEscBody, hesc]; unfold parsePyStrBody;
                 simp [hexVal_hexDigit _ ha, hexVal_hexDigit _ hb, Nat.div_add_mod,
                   Char.ofNat_toNat, ih, consFst])
            · have hesc : pyEscChar q c = [c] := by
                simp [pyEscChar, h1.1, h1.2, h2, h3, h4, h5]
              rcases hq with rfl | rfl <;>
                (simp only [pyEscBody, hesc]; unfold parsePyStrBody;
                 simp [h1.1, h1.2, h2, h3, h4, ih, consFst])

theorem parsePyStr_roundtrip (s : String) (rest : List Char) :
    parsePyStr ((pyReprStr s).toList ++ rest) = some (s, rest) := by
  have hq := pyQuoteChar_cases s.toList
  have hshape : (pyReprStr s).toList ++ rest =
      pyQuoteChar s.toList :: (pyEscBody (pyQuoteChar s.toList) s.toList ++
        (pyQuoteChar s.toList :: rest)) := by
    simp [pyReprStr, pyReprStrChars]
  rw [hshape]
  rcases hq with hq' | hq'
  · rw [hq']
    unfold parsePyStr
    simp
    exact ⟨s.data, parsePyStrBody_escBody '\x27' (Or.inl rfl) s.toList rest,
      by cases s; rfl⟩
  · rw [hq']
    unfold parsePyStr
    simp
    exact ⟨s.data, parsePyStrBody_escBody '"' (Or.inr rfl) s.toList rest,
      by cases s; rfl⟩

theorem pyReprStrChars_ne_nil (cs : List Char) : pyReprStrChars cs ≠ [] := by
  simp [pyReprStrChars]

theorem pyReprStrChars_head (cs : List Char) :
    pyReprStrChars cs = pyQuoteChar cs :: (pyEscBody (pyQuoteChar cs) cs ++ [pyQuoteChar cs]) := by
  simp [pyReprStrChars]

/-! ## Helper lemmas: separated item lists -/

theorem reprJoin_length {α : Type} (f : α → List Char) (hf : ∀ a, f a ≠ []) :
    ∀ (l : List α) (rest : List Char), l.length ≤ (reprJoin (l.map f) ++ rest).length := by
  intro l
  induction l with
  | nil => simp
  | cons a l ih =>
    intro rest
    have hfa : 1 ≤ (f a).length := List.length_pos.mpr (hf a)
    cases l with
    | nil =>
      simp [reprJoin, reprSep]
      omega
    | cons b l' =>
      have hrec := ih rest
      have hshape : reprJoin ((a :: b :: l').map f) ++ rest =
          f a ++ (',' :: ' ' :: (reprJoin ((b :: l').map f) ++ rest)) := by
        simp [reprJoin, reprSep, List.append_assoc]
      rw [hshape]
      simp only [List.length_append, List.length_cons] at hrec ⊢
      omega

theorem sepItems_roundtrip {α : Type} (p : List Char → Option (α × List Char))
    (f : α → List Char) (hp : ∀ a rest, p (f a ++ rest) = some (a, rest)) :
    ∀ (l : List α) (fuel : Nat) (rest : List Char), l ≠ [] → l.length ≤ fuel →
      rest.head? ≠ some ',' →
      sepItems p fuel (reprJoin (l.map f) ++ rest) = some (l, rest) := by
  intro l
  induction l with
  | nil => intro _ _ h; exact absurd rfl h
  | cons a l ih =>
    intro fuel rest _ hfuel hrest
    cases fuel with
    | zero => simp at hfuel
    | succ fuel =>
      unfold sepItems
      rw [show reprJoin ((a :: l).map f) ++ rest =
            f a ++ (reprSep (l.map f) ++ rest) by simp [reprJoin, List.append_assoc]]
      rw [hp]
      simp only [Option.some_bind]
      cases l with
      | nil =>
        rw [show reprSep (List.map f []) ++ rest = rest by simp [reprSep]]
        rw [if_neg]
        intro htake
        cases rest with
        | nil => simp at htake
        | cons r rtl =>
          simp [List.take] at htake
          exact hrest (by simp [htake.1])
      | cons b l' =>
        rw [show reprSep ((b :: l').map f) ++ rest =
              ',' :: ' ' :: (reprJoin ((b :: l').map f) ++ rest) by
            simp [reprSep, reprJoin, List.append_assoc]]
        rw [if_pos (by simp)]
        rw [show ((',' :: ' ' :: (reprJoin ((b :: l').map f) ++ rest) : List Char)).drop 2 =
              reprJoin ((b :: l').map f) ++ rest by simp]
        rw [ih fuel rest (by simp) (by simpa using Nat.le_of_succ_le_succ hfuel) hrest]
        rfl

theorem pyQuoteChar_ne (cs : List Char) :
    pyQuoteChar cs ≠ ']' ∧ pyQuoteChar cs ≠ '\x7d' ∧ pyQuoteChar cs ≠ 'N' := by
  rcases pyQuoteChar_cases cs with h | h <;> rw [h] <;>
    exact ⟨by decide, by decide, by decide⟩

theorem parsePyList_roundtrip (l : List String) (rest : List Char) :
    parsePyList ((pyReprList l).toList ++ rest) = some (l, rest) := by
  cases l with
  | nil =>
    show parsePyList ('[' :: ']' :: rest) = some ([], rest)
    simp [parsePyList]
  | cons s l' =>
    have hshape : (pyReprList (s :: l')).toList ++ rest =
        '[' :: (reprJoin ((s :: l').map (fun t => (pyReprStr t).toList)) ++ (']' :: rest)) := by
      simp [pyReprList, List.append_assoc]
    have hhead : reprJoin ((s :: l').map (fun t => (pyReprStr t).toList)) ++ (']' :: rest) =
        pyQuoteChar s.toList :: ((pyEscBody (pyQuoteChar s.toList) s.toList ++
          [pyQuoteChar s.toList]) ++ (reprSep (l'.map (fun t => (pyReprStr t).toList)) ++
            (']' :: rest))) := by
      simp [reprJoin, pyReprStr, pyReprStrChars_head, List.append_assoc]
    have hlen : (s :: l').length ≤
        ('[' :: (reprJoin ((s :: l').map (fun t => (pyReprStr t).toList)) ++
          (']' :: rest))).length := by
      have hr := reprJoin_length (fun t => (pyReprStr t).toList)
        (fun a => by simp [pyReprStr, pyReprStrChars_ne_nil]) (s :: l') (']' :: rest)
      simp only [List.length_cons] at hr ⊢
      omega
    have hitems := sepItems_roundtrip parsePyStr (fun t => (pyReprStr t).toList)
      (fun a r => parsePyStr_roundtrip a r) (s :: l')
      ('[' :: (reprJoin ((s :: l').map (fun t => (pyReprStr t).toList)) ++
        (']' :: rest))).length
      (']' :: rest) (by simp) hlen (by simp)
    have hno : ¬ (('[' :: (reprJoin ((s :: l').map (fun t => (pyReprStr t).toList)) ++
        (']' :: rest)) : List Char).take 2 = ['[', ']']) := by
      rw [hhead]
      intro htake
      simp [List.take] at htake
      exact (pyQuoteChar_ne s.toList).1 htake
    rw [hshape]
    unfold parsePyList
    rw [if_neg hno, if_pos (by simp [List.take])]
    rw [show (('[' :: (reprJoin ((s :: l').map (fun t => (pyReprStr t).toList)) ++
          (']' :: rest)) : List Char)).drop 1 =
        reprJoin ((s :: l').map (fun t => (pyReprStr t).toList)) ++ (']' :: rest) by simp]
    rw [hitems]
    simp [List.take]

theorem parseDictEntry_roundtrip (kv : String × String) (rest : List Char) :
    parseDictEntry (pyReprEntry kv ++ rest) = some (kv, rest) := by
  obtain ⟨k, v⟩ := kv
  have hshape : pyReprEntry (k, v) ++ rest =
      (pyReprStr k).toList ++ (':' :: ' ' :: ((pyReprStr v).toList ++ rest)) := by
    simp [pyReprEntry, List.append_assoc]
  unfold parseDictEntry
  rw [hshape, parsePyStr_roundtrip k]
  simp only [Option.some_bind]
  rw [if_pos (by simp [List.take])]
  rw [show ((':' :: ' ' :: ((pyReprStr v).toList ++ rest) : List Char)).drop 2 =
        (pyReprStr v).toList ++ rest by simp]
  rw [parsePyStr_roundtrip v]
  rfl

theorem pyReprEntry_ne_nil (kv : String × String) : pyReprEntry kv ≠ [] := by
  obtain ⟨k, v⟩ := kv
  simp [pyReprEntry, pyReprStr, pyReprStrChars_ne_nil]

theorem parsePyDict_roundtrip (d : List (String × String)) (rest : List Char) :
    parsePyDict ((pyReprDict d).toList ++ rest) = some (d, rest) := by
  cases d with
  | nil =>
    show parsePyDict ('\x7b' :: '\x7d' :: rest) = some ([], rest)
    simp [parsePyDict]
  | cons kv d' =>
    have hshape : (pyReprDict (kv :: d')).toList ++ rest =
        '\x7b' :: (reprJoin ((kv :: d').map pyReprEntry) ++ ('\x7d' :: rest)) := by
      simp [pyReprDict, List.append_assoc]
    have hhead : reprJoin ((kv :: d').map pyReprEntry) ++ ('\x7d' :: rest) =
        pyQuoteChar kv.1.toList :: ((pyEscBody (pyQuoteChar kv.1.toList) kv.1.toList ++
          [pyQuoteChar kv.1.toList]) ++ ((':' :: ' ' :: (pyReprStr kv.2).toList) ++
            (reprSep (d'.map pyReprEntry) ++ ('\x7d' :: rest)))) := by
      simp [reprJoin, pyReprEntry, pyReprStr, pyReprStrChars_head, List.append_assoc]
    have hlen : (kv :: d').length ≤
        ('\x7b' :: (reprJoin ((kv :: d').map pyReprEntry) ++ ('\x7d' :: rest))).length := by
      have hr := reprJoin_length pyReprEntry pyReprEntry_ne_nil (kv :: d') ('\x7d' :: rest)
      simp only [List.length_cons] at hr ⊢
      omega
    have hitems := sepItems_roundtrip parseDictEntry pyReprEntry
      (fun a r => parseDictEntry_roundtrip a r) (kv :: d')
      ('\x7b' :: (reprJoin ((kv :: d').map pyReprEntry) ++ ('\x7d' :: rest))).length
      ('\x7d' :: rest) (by simp) hlen (by simp)
    have hno : ¬ (('\x7b' :: (reprJoin ((kv :: d').map pyReprEntry) ++
        ('\x7d' :: rest)) : List Char).take 2 = ['\x7b', '\x7d']) := by
      rw [hhead]
      intro htake
      simp [List.take] at htake
      exact (pyQuoteChar_ne kv.1.toList).2.1 htake
    rw [hshape]
    unfold parsePyDict
    rw [if_neg hno, if_pos (by simp [List.take])]
    rw [show (('\x7b' :: (reprJoin ((kv :: d').map pyReprEntry) ++
          ('\x7d' :: rest)) : List Char)).drop 1 =
        reprJoin ((kv :: d').map pyReprEntry) ++ ('\x7d' :: rest) by simp]
    rw [hitems]
    simp [List.take]

theorem parsePyOptStr_roundtrip (o : Option String) (rest : List Char) :
    parsePyOptStr ((pyReprOptStr o).toList ++ rest) = some (o, rest) := by
  cases o with
  | none =>
    show parsePyOptStr ('N' :: 'o' :: 'n' :: 'e' :: rest) = some (none, rest)
    simp [parsePyOptStr]
  | some s =>
    have hshape : (pyReprOptStr (some s)).toList ++ rest =
        pyQuoteChar s.toList :: ((pyEscBody (pyQuoteChar s.toList) s.toList ++
          [pyQuoteChar s.toList]) ++ rest) := by
      simp [pyReprOptStr, pyReprStr, pyReprStrChars_head, List.append_assoc]
    have hshape2 : (pyReprStr s).toList ++ rest =
        pyQuoteChar s.toList :: ((pyEscBody (pyQuoteChar s.toList) s.toList ++
          [pyQuoteChar s.toList]) ++ rest) := hshape
    have hstr := parsePyStr_roundtrip s rest
    rw [hshape2] at hstr
    have hno : ¬ ((pyQuoteChar s.toList :: ((pyEscBody (pyQuoteChar s.toList) s.toList ++
        [pyQuoteChar s.toList]) ++ rest) : List Char).take 4 = ['N', 'o', 'n', 'e']) := by
      intro htake
      simp [List.take] at htake
      exact (pyQuoteChar_ne s.toList).2.2 htake.1
    rw [hshape]
    unfold parsePyOptStr
    rw [if_neg hno, hstr]
    rfl

/-! ## Helper lemmas: the Python dict model -/

theorem pyLookup_pyDictSet_self (d : List (String × String)) (k v : String) :
    pyLookup (pyDictSet d k v) k = some v := by
  induction d with
  | nil => simp [pyDictSet, pyLookup]
  | cons p d ih =>
    by_cases hp : p.1 = k
    · simp [pyDictSet, pyLookup, hp]
    · simp [pyDictSet, pyLookup, hp, ih]

theorem pyLookup_pyDictSet_other (d : List (String × String)) (k k' v : String)
    (h : k' ≠ k) : pyLookup (pyDictSet d k' v) k = pyLookup d k := by
  induction d with
  | nil => simp [pyDictSet, pyLookup, h]
  | cons p d ih =>
    by_cases hp : p.1 = k'
    · simp [pyDictSet, pyLookup, hp, h]
    · simp [pyDictSet, pyLookup, hp, ih]

theorem pyLookup_pyDictUpdate (u : List (String × String)) :
    ∀ (d : List (String × String)) (k : String),
      pyLookup (pyDictUpdate d u) k = (envLast u k).or (pyLookup d k) := by
  induction u with
  | nil => intro d k; simp [pyDictUpdate, envLast]
  | cons q u ih =>
    intro d k
    rw [show pyDictUpdate d (q :: u) = pyDictUpdate (pyDictSet d q.1 q.2) u from rfl]
    rw [ih]
    by_cases hq : q.1 = k
    · rw [hq, pyLookup_pyDictSet_self]
      simp [envLast, hq, Option.or_assoc]
    · rw [pyLookup_pyDictSet_other d k q.1 q.2 hq]
      simp [envLast, hq]

theorem pyLookup_pyDict (u : List (String × String)) (k : String) :
    pyLookup (pyDict u) k = envLast u k := by
  rw [pyDict, pyLookup_pyDictUpdate]
  simp [pyLookup]

theorem envLast_eq_none (u : List (String × String)) (k : String)
    (h : ∀ p ∈ u, p.1 ≠ k) : envLast u k = none := by
  induction u with
  | nil => rfl
  | cons p u ih =>
    simp only [envLast]
    rw [ih (fun q hq => h q (List.mem_cons_of_mem p hq)), if_neg (h p (List.mem_cons_self p u))]
    rfl

/-! ## Helper lemmas: shell quoting round trip -/

theorem shlexSafe_spec (c : Char) (h : shlexSafe c = true) :
    c ≠ ' ' ∧ c ≠ '\t' ∧ c ≠ '\n' ∧ c ≠ '\x27' ∧ c ≠ '"' ∧ c ≠ '\\' ∧
      c ≠ '$' ∧ c ≠ '\x60' := by
  refine ⟨?_, ?_, ?_, ?_, ?_, ?_, ?_, ?_⟩ <;>
    (rintro rfl; exact absurd h (by decide))

theorem shWord_norm_nil : shWord .norm [] = some ([], []) := by
  rw [shWord.eq_def]

theorem shWord_norm_step (c : Char) (rest : List Char) :
    shWord .norm (c :: rest) =
      if c = ' ' ∨ c = '\t' ∨ c = '\n' then some ([], c :: rest)
      else if c = '\x27' then shWord .insingle rest
      else if c = '"' then shWord .indouble rest
      else if c = '\\' then
        match rest with
        | [] => none
        | e :: rest2 =>
          if e = '\n' then shWord .norm rest2 else (shWord .norm rest2).map (consFst e)
      else if c = '$' ∨ c = '\x60' then none
      else (shWord .norm rest).map (consFst c) := by
  rw [shWord.eq_def]

theorem shWord_insingle_step (c : Char) (rest : List Char) :
    shWord .insingle (c :: rest) =
      if c = '\x27' then shWord .norm rest
      else (shWord .insingle rest).map (consFst c) := by
  rw [shWord.eq_def]

theorem shWord_indouble_step (c : Char) (rest : List Char) :
    shWord .indouble (c :: rest) =
      if c = '"' then shWord .norm rest
      else if c = '\\' then
        match rest with
        | [] => none
        | e :: rest2 =>
          if e = '$' ∨ e = '\x60' ∨ e = '"' ∨ e = '\\' then
            (shWord .indouble rest2).map (consFst e)
          else if e = '\n' then shWord .indouble rest2
          else (shWord .indouble (e :: rest2)).map (consFst '\\')
      else if c = '$' ∨ c = '\x60' then none
      else (shWord .indouble rest).map (consFst c) := by
  rw [shWord.eq_def]

theorem shWord_safe (cs : List Char) (h : cs.all shlexSafe = true) :
    shWord .norm cs = some (cs, []) := by
  induction cs with
  | nil => exact shWord_norm_nil
  | cons c cs ih =>
    rw [List.all_cons, Bool.and_eq_true] at h
    obtain ⟨h1, h2, h3, h4, h5, h6, h7, h8⟩ := shlexSafe_spec c h.1
    rw [shWord_norm_step, if_neg (by simp [h1, h2, h3]), if_neg h4, if_neg h5,
      if_neg h6, if_neg (by simp [h7, h8]), ih h.2]
    rfl

theorem shWord_quoted_body (cs : List Char) :
    ∀ rest : List Char,
      shWord .insingle (shQuoteBody cs ++ '\x27' :: rest) =
        (shWord .norm rest).map (fun p => (cs ++ p.1, p.2)) := by
  induction cs with
  | nil =>
    intro rest
    rw [show shQuoteBody [] ++ '\x27' :: rest = '\x27' :: rest by simp [shQuoteBody]]
    rw [shWord_insingle_step, if_pos rfl]
    cases hw : shWord .norm rest <;> simp
  | cons c cs ih =>
    intro rest
    by_cases hc : c = '\x27'
    · subst hc
      rw [show shQuoteBody ('\x27' :: cs) ++ '\x27' :: rest =
            '\x27' :: '"' :: '\x27' :: '"' :: '\x27' :: (shQuoteBody cs ++ '\x27' :: rest) by
          simp [shQuoteBody]]
      rw [shWord_insingle_step, if_pos rfl]
      rw [shWord_norm_step, if_neg (by decide), if_neg (by decide), if_pos rfl]
      rw [shWord_indouble_step, if_neg (by decide), if_neg (by decide),
        if_neg (by decide)]
      rw [shWord_indouble_step, if_pos rfl]
      rw [shWord_norm_step, if_neg (by decide), if_pos rfl]
      rw [ih rest]
      cases hw : shWord .norm rest <;> simp [consFst]
    · rw [show shQuoteBody (c :: cs) ++ '\x27' :: rest =
            c :: (shQuoteBody cs ++ '\x27' :: rest) by simp [shQuoteBody, hc]]
      rw [shWord_insingle_step, if_neg hc, ih rest]
      cases hw : shWord .norm rest <;> simp [consFst]

theorem shlex_quote_roundtrip (s : String) :
    shWord .norm (shlex_quote s).toList = some (s.toList, []) := by
  by_cases hs : s = ""
  · subst hs
    decide
  · by_cases hsafe : s.toList.all shlexSafe = true
    · rw [show shlex_quote s = s by rw [shlex_quote, if_neg hs, if_pos hsafe]]
      exact shWord_safe s.toList hsafe
    · have hq : (shlex_quote s).toList =
          '\x27' :: (shQuoteBody s.toList ++ '\x27' :: []) := by
        rw [shlex_quote, if_neg hs, if_neg hsafe, toList_append, toList_append]
        simp
      rw [hq]
      rw [shWord_norm_step, if_neg (by decide), if_pos rfl,
        shWord_quoted_body s.toList []]
      rw [shWord_norm_nil]
      simp

/-! ## Helper lemmas: splitting `NAME=VALUE` arguments -/

theorem takeWhile_until_eq (pre : List Char) (h : ∀ c ∈ pre, c ≠ '=') (post : List Char) :
    (pre ++ '=' :: post).takeWhile (fun c => c != '=') = pre ∧
      (pre ++ '=' :: post).dropWhile (fun c => c != '=') = '=' :: post := by
  induction pre with
  | nil => simp [List.takeWhile, List.dropWhile]
  | cons c pre ih =>
    have hc : (c != '=') = true := by
      simp [h c (List.mem_cons_self c pre)]
    have hrec := ih (fun d hd => h d (List.mem_cons_of_mem c hd))
    simp [List.takeWhile_cons, List.dropWhile_cons, hc, hrec.1, hrec.2]

theorem takeWhile_no_eq (cs : List Char) (h : ∀ c ∈ cs, c ≠ '=') :
    cs.takeWhile (fun c => c != '=') = cs ∧
      cs.dropWhile (fun c => c != '=') = [] := by
  induction cs with
  | nil => simp
  | cons c cs ih =>
    have hc : (c != '=') = true := by
      simp [h c (List.mem_cons_self c cs)]
    have hrec := ih (fun d hd => h d (List.mem_cons_of_mem c hd))
    simp [List.takeWhile_cons, List.dropWhile_cons, hc, hrec.1, hrec.2]

/-! ## Helper lemmas: joining history lines -/

theorem pyJoin_newline (history : List String) (hne : history ≠ []) :
    history_lines history = (history.map (fun l => l ++ "\n")).foldr (· ++ ·) "" := by
  induction history with
  | nil => exact absurd rfl hne
  | cons a l ih =>
    cases l with
    | nil => simp [history_lines, pyJoin]
    | cons b l' =>
      have hrec := ih (by simp)
      simp only [history_lines, pyJoin] at hrec ⊢
      rw [List.map_cons, List.foldr_cons, ← hrec]
      simp [String.append_assoc]

/-! ## Claims -/

/-- C1: for every argument list, working directory and environment mapping, the
script generators render each interpolated value (strings, lists of strings,
string-to-string mappings, `None`) as a literal the target interpreter parses
back into an equivalent value; the parse consumes exactly the literal and
leaves any following script text untouched, so values containing quotes,
backslashes or newlines survive generation unchanged and cannot alter the
structure of the generated script. -/
theorem claim1_repr_literals_roundtrip :
    (∀ (s : String) (rest : List Char),
      parsePyStr ((pyReprStr s).toList ++ rest) = some (s, rest))
    ∧ (∀ (l : List String) (rest : List Char),
      parsePyList ((pyReprList l).toList ++ rest) = some (l, rest))
    ∧ (∀ (d : List (String × String)) (rest : List Char),
      parsePyDict ((pyReprDict d).toList ++ rest) = some (d, rest))
    ∧ (∀ (o : Option String) (rest : List Char),
      parsePyOptStr ((pyReprOptStr o).toList ++ rest) = some (o, rest)) :=
  ⟨parsePyStr_roundtrip, parsePyList_roundtrip, parsePyDict_roundtrip,
    parsePyOptStr_roundtrip⟩

/-- C2 counterexample: for the empty history list the embedded history-file
content is a single newline (`"\n".join([]) + "\n"`), not the empty
concatenation, so the claim fails at `history = []`. -/
theorem claim2_history_content_counterexample :
    history_lines [] = "\n"
    ∧ (([] : List String).map (fun l => l ++ "\n")).foldr (· ++ ·) "" = ""
    ∧ history_lines [] ≠
        (([] : List String).map (fun l => l ++ "\n")).foldr (· ++ ·) "" :=
  ⟨rfl, rfl, by decide⟩

/-- C2 (amended): for every nonempty list of history lines the history-file
content embedded by the shell-script generator equals the concatenation, in
order, of each line followed by a newline; for the empty list the content is a
single newline rather than the empty string. -/
theorem claim2_history_content :
    (∀ history : List String, history ≠ [] →
      history_lines history = (history.map (fun l => l ++ "\n")).foldr (· ++ ·) "")
    ∧ history_lines [] = "\n" :=
  ⟨pyJoin_newline, rfl⟩

/-- C2 witness: the amended claim evaluated at a concrete two-line history. -/
theorem claim2_history_content_witness :
    (["echo hello", "ls"] : List String) ≠ []
    ∧ history_lines ["echo hello", "ls"] =
        ((["echo hello", "ls"] : List String).map (fun l => l ++ "\n")).foldr (· ++ ·) "" :=
  ⟨by decide, claim2_history_content.1 ["echo hello", "ls"] (by decide)⟩

/-- C3 counterexample: when the environment overrides themselves contain the
key `HISTFILE`, the generated script's `dict(os.environ, HISTFILE=h, **env)`
raises a `TypeError` (duplicate keyword argument), so no shell is started at
all — refuting the claim for that override mapping. -/
theorem claim3_histfile_counterexample :
    shell_command_effect none [("HISTFILE", "/tmp/alt")] ["ls"]
      [("SHELL", "zsh")] "/tmp/t" = .error .histfileKeywordCollision := rfl

/-- C3 (amended): for every history list and every environment-override
mapping that does not itself contain the key `HISTFILE`, the shell started by
the generated shell script receives `HISTFILE` pointing at the history file
created inside the temporary directory, with the other environment overrides
merged in; an override mapping containing `HISTFILE` instead makes the script
raise a `TypeError` before any shell is spawned. -/
theorem claim3_histfile (cwd : Option String) (env : List (String × String))
    (history : List String) (ambient : List (String × String)) (tmpdir : String)
    (h : ∀ p ∈ env, p.1 ≠ "HISTFILE") :
    ∃ spec : ShellSpec,
      shell_command_effect cwd env history ambient tmpdir = .ok spec
      ∧ spec.histPath = tmpdir ++ "/history"
      ∧ pyLookup spec.env "HISTFILE" = some spec.histPath
      ∧ spec.histContent = history_lines history
      ∧ (∀ k, k ≠ "HISTFILE" →
          pyLookup spec.env k = (envLast env k).or (pyLookup ambient k)) := by
  have hany : env.any (fun p => p.1 == "HISTFILE") = false := by
    simp only [List.any_eq_false]
    intro p hp
    simp [h p hp]
  have heff : shell_command_effect cwd env history ambient tmpdir =
      .ok { shell := (pyLookup (pyDictUpdate ambient
              (("HISTFILE", tmpdir ++ "/history") :: env)) "SHELL").getD "bash"
            cwd := cwd
            env := pyDictUpdate ambient (("HISTFILE", tmpdir ++ "/history") :: env)
            histPath := tmpdir ++ "/history"
            histContent := history_lines history } := by
    unfold shell_command_effect
    rw [hany]
    rfl
  refine ⟨_, heff, rfl, ?_, rfl, ?_⟩
  · show pyLookup (pyDictUpdate ambient (("HISTFILE", tmpdir ++ "/history") :: env))
      "HISTFILE" = some (tmpdir ++ "/history")
    rw [pyLookup_pyDictUpdate]
    simp [envLast, envLast_eq_none env "HISTFILE" h]
  · intro k hk
    show pyLookup (pyDictUpdate ambient (("HISTFILE", tmpdir ++ "/history") :: env)) k =
      (envLast env k).or (pyLookup ambient k)
    rw [pyLookup_pyDictUpdate]
    have hne : ¬ ("HISTFILE" = k) := fun hh => hk hh.symm
    simp [envLast, hne]

/-- C3 witness: the amended claim evaluated at a concrete configuration. -/
theorem claim3_histfile_witness :
    (∀ p ∈ ([("A", "1")] : List (String × String)), p.1 ≠ "HISTFILE")
    ∧ ∃ spec : ShellSpec,
        shell_command_effect none [("A", "1")] ["make"]
          [("A", "0"), ("SHELL", "zsh")] "/tmp/t" = .ok spec
        ∧ spec.histPath = "/tmp/t" ++ "/history"
        ∧ pyLookup spec.env "HISTFILE" = some spec.histPath
        ∧ spec.histContent = history_lines ["make"]
        ∧ (∀ k, k ≠ "HISTFILE" →
            pyLookup spec.env k =
              (envLast [("A", "1")] k).or
                (pyLookup [("A", "0"), ("SHELL", "zsh")] k)) :=
  ⟨by decide, claim3_histfile none [("A", "1")] ["make"]
    [("A", "0"), ("SHELL", "zsh")] "/tmp/t" (by decide)⟩

/-- C4: the remote command line carries the script quoted exactly once more
than the local case (`shlex.quote` applied to the otherwise-bare script
argument), and one layer of POSIX shell word tokenization recovers the script
text exactly; the witness instantiates this with a script whose history line
embeds a single quote. -/
theorem claim4_remote_quoting (script : String) (args : List String)
    (h : args ≠ []) :
    run_script_command (some args) script =
      "ssh" :: args ++ ["python", "-c", shlex_quote script]
    ∧ run_script_command none script = ["python", "-c", script]
    ∧ shWord .norm (shlex_quote script).toList = some (script.toList, []) := by
  refine ⟨?_, rfl, shlex_quote_roundtrip script⟩
  cases args with
  | nil => exact absurd rfl h
  | cons a as => rfl

/-- C4 witness: a script generated from a history line containing a single
quote survives the extra quoting layer end to end. -/
theorem claim4_remote_quoting_witness :
    (["user@host"] : List String) ≠ []
    ∧ (run_script_command (some ["user@host"])
          (make_shell_command none [] ["echo don\x27t"]) =
        "ssh" :: ["user@host"] ++
          ["python", "-c", shlex_quote (make_shell_command none [] ["echo don\x27t"])]
      ∧ run_script_command none (make_shell_command none [] ["echo don\x27t"]) =
          ["python", "-c", make_shell_command none [] ["echo don\x27t"]]
      ∧ shWord .norm
          (shlex_quote (make_shell_command none [] ["echo don\x27t"])).toList =
          some ((make_shell_command none [] ["echo don\x27t"]).toList, [])) :=
  ⟨by decide,
    claim4_remote_quoting (make_shell_command none [] ["echo don\x27t"])
      ["user@host"] (by decide)⟩

/-- C5 counterexample: a launch failure (executable not found) makes the
interpreter die with an unhandled exception and exit status 1, which is the
same exit status as a child that ran and returned 1 — so the launch-failure
status is not distinct from every "child ran and returned nonzero" status. -/
theorem claim5_exit_status_counterexample :
    run_script_exit (.error .fileNotFound) = 1 ∧ run_script_exit (.ok 1) = 1 :=
  ⟨rfl, rfl⟩

/-- C5 (amended): after the child terminates the tool exits with precisely the
child's exit status (in particular for 0, 1, 127 and 255); when the child
cannot be started the tool exits non-zero (status 1, with the unhandled
`FileNotFoundError` traceback as the stderr diagnostic), but that status
coincides with a child exiting 1, so only the diagnostic distinguishes the two
cases. -/
theorem claim5_exit_propagation :
    (∀ rc : Int, 0 ≤ rc → rc < 256 → run_script_exit (.ok rc) = rc.toNat)
    ∧ run_script_exit (.ok 0) = 0 ∧ run_script_exit (.ok 1) = 1
    ∧ run_script_exit (.ok 127) = 127 ∧ run_script_exit (.ok 255) = 255
    ∧ (∀ e : LaunchError, run_script_exit (.error e) = 1 ∧
        run_script_exit (.error e) ≠ 0) := by
  refine ⟨?_, rfl, rfl, rfl, rfl, fun e => ⟨rfl, one_ne_zero⟩⟩
  intro rc h1 h2
  simp [run_script_exit, Int.emod_eq_of_lt h1 h2]

/-- C5 witness: the exit-status propagation evaluated at the representative
child status 127. -/
theorem claim5_exit_propagation_witness :
    (0 : Int) ≤ 127 ∧ (127 : Int) < 256
    ∧ run_script_exit (.ok 127) = (127 : Int).toNat :=
  ⟨by decide, by decide, claim5_exit_propagation.1 127 (by decide) (by decide)⟩

/-- C6: with `--ssh` omitted the launcher's command line is exactly the local
interpreter with the inline-program flag and the bare script; with `--ssh`
given N ≥ 1 times it is the secure-shell client followed by exactly those N
arguments in order, then the fixed remote invocation with the quoted
script. -/
theorem claim6_command_structure (script : String) (args : List String)
    (h : args ≠ []) :
    run_script_command none script = ["python", "-c", script]
    ∧ run_script_command (some args) script =
        "ssh" :: args ++ ["python", "-c", shlex_quote script] := by
  refine ⟨rfl, ?_⟩
  cases args with
  | nil => exact absurd rfl h
  | cons a as => rfl

/-- C6 witness: the command structure evaluated with three ssh arguments. -/
theorem claim6_command_structure_witness :
    (["-p", "2222", "user@host"] : List String) ≠ []
    ∧ (run_script_command none "print(1)" = ["python", "-c", "print(1)"]
      ∧ run_script_command (some ["-p", "2222", "user@host"]) "print(1)" =
          "ssh" :: ["-p", "2222", "user@host"] ++
            ["python", "-c", shlex_quote "print(1)"]) :=
  ⟨by decide,
    claim6_command_structure "print(1)" ["-p", "2222", "user@host"] (by decide)⟩

/-- C7 counterexample: with an override mapping containing `HISTFILE` the
generated script raises a `TypeError` before launching anything, so no shell
at all is started even though `SHELL` is overridden to `fish` — refuting the
claim for that override mapping. -/
theorem claim7_shell_choice_counterexample :
    shell_command_effect none [("HISTFILE", "/tmp/h"), ("SHELL", "fish")] []
      [("SHELL", "bash")] "/tmp/d" = .error .histfileKeywordCollision := rfl

/-- C7 (amended): provided the override mapping does not contain the key
`HISTFILE` (otherwise the script raises a `TypeError` and launches nothing),
the generated shell script launches the shell named by `SHELL` as evaluated
after applying the overrides on top of the ambient environment — an override
of `SHELL` takes effect — and defaults to `bash` when `SHELL` is unset in the
merged environment. -/
theorem claim7_shell_choice (cwd : Option String) (env : List (String × String))
    (history : List String) (ambient : List (String × String)) (tmpdir : String)
    (h : ∀ p ∈ env, p.1 ≠ "HISTFILE") :
    ∃ spec : ShellSpec,
      shell_command_effect cwd env history ambient tmpdir = .ok spec
      ∧ spec.shell = ((envLast env "SHELL").or (pyLookup ambient "SHELL")).getD "bash" := by
  have hany : env.any (fun p => p.1 == "HISTFILE") = false := by
    simp only [List.any_eq_false]
    intro p hp
    simp [h p hp]
  have heff : shell_command_effect cwd env history ambient tmpdir =
      .ok { shell := (pyLookup (pyDictUpdate ambient
              (("HISTFILE", tmpdir ++ "/history") :: env)) "SHELL").getD "bash"
            cwd := cwd
            env := pyDictUpdate ambient (("HISTFILE", tmpdir ++ "/history") :: env)
            histPath := tmpdir ++ "/history"
            histContent := history_lines history } := by
    unfold shell_command_effect
    rw [hany]
    rfl
  refine ⟨_, heff, ?_⟩
  show (pyLookup (pyDictUpdate ambient (("HISTFILE", tmpdir ++ "/history") :: env))
      "SHELL").getD "bash" = _
  rw [pyLookup_pyDictUpdate]
  simp [envLast]

/-- C7 witness: an override of `SHELL` takes effect at a concrete
configuration. -/
theorem claim7_shell_choice_witness :
    (∀ p ∈ ([("SHELL", "zsh")] : List (String × String)), p.1 ≠ "HISTFILE")
    ∧ ∃ spec : ShellSpec,
        shell_command_effect none [("SHELL", "zsh")] [] [("SHELL", "bash")]
          "/tmp/t" = .ok spec
        ∧ spec.shell = ((envLast [("SHELL", "zsh")] "SHELL").or
            (pyLookup [("SHELL", "bash")] "SHELL")).getD "bash" :=
  ⟨by decide, claim7_shell_choice none [("SHELL", "zsh")] [] [("SHELL", "bash")]
    "/tmp/t" (by decide)⟩

/-- C8: every `--env` argument is split at its first `=` into a name and a
value (the whole argument becoming the name, with an empty value, when no `=`
is present), and converting the resulting pairs to a mapping assigns to each
name the value of its last occurrence; in particular `--env A=1 --env A=2`
yields `A` mapped to `"2"`. -/
theorem claim8_env_parsing :
    (∀ pre post : String, (∀ c ∈ pre.toList, c ≠ '=') →
      environment_variable (pre ++ "=" ++ post) = (pre, post))
    ∧ (∀ arg : String, (∀ c ∈ arg.toList, c ≠ '=') →
      environment_variable arg = (arg, ""))
    ∧ (∀ (pairs : List (String × String)) (k : String),
      pyLookup (pyDict pairs) k = envLast pairs k)
    ∧ pyDict [environment_variable "A=1", environment_variable "A=2"] = [("A", "2")] := by
  refine ⟨?_, ?_, fun pairs k => pyLookup_pyDict pairs k, by decide⟩
  · intro pre post h
    have hshape : (pre ++ "=" ++ post).toList = pre.toList ++ '=' :: post.toList := by
      rw [toList_append, toList_append]
      simp [show ("=" : String).toList = ['='] from rfl]
    have hsplit := takeWhile_until_eq pre.toList h post.toList
    rw [environment_variable, hshape, hsplit.1, hsplit.2]
    simp [mk_toList]
  · intro arg h
    have hsplit := takeWhile_no_eq arg.toList h
    rw [environment_variable, hsplit.1, hsplit.2]
    simp [mk_toList]

/-- C8 witness: the splitting behaviour evaluated at `A=1`. -/
theorem claim8_env_parsing_witness :
    (∀ c ∈ ("A" : String).toList, c ≠ '=')
    ∧ environment_variable ("A" ++ "=" ++ "1") = ("A", "1") :=
  ⟨by decide, claim8_env_parsing.1 "A" "1" (by decide)⟩

/-- C9: the generated run script invokes a child with exactly the given
argument list, with the given working directory (or the ambient one when
absent), and with an environment equal to the ambient environment with the
overrides applied on top: an overridden name gets the override's (last) value
and every name not overridden keeps its ambient binding. -/
theorem claim9_run_effect (command : List String) (cwd : Option String)
    (env ambient : List (String × String)) (ambientCwd : String) :
    (run_command_effect command cwd env ambient ambientCwd).argv = command
    ∧ (run_command_effect command cwd env ambient ambientCwd).cwd =
        cwd.getD ambientCwd
    ∧ (∀ k, pyLookup (run_command_effect command cwd env ambient ambientCwd).env k =
        (envLast env k).or (pyLookup ambient k)) :=
  ⟨rfl, rfl, fun k => pyLookup_pyDictUpdate env ambient k⟩

/-- C10: the shell-history encoding is not injective: the one-element history
list containing "a\nb" and the two-element history list containing "a" and
"b" are distinct, yet the generator produces identical script text and
identical history-file content for them. -/
theorem claim10_history_not_injective :
    make_shell_command none [] ["a\nb"] = make_shell_command none [] ["a", "b"]
    ∧ history_lines ["a\nb"] = history_lines ["a", "b"]
    ∧ (["a\nb"] : List String) ≠ ["a", "b"] :=
  ⟨by decide, by decide, by decide⟩
